import Mathlib

/-!
Verification of the mcp-executor execution engine.

This development shallowly embeds the Go source of the repository
ylchen07/mcp-executor: the per-language MCP tool adapters
(internal/tools/{python,bash,go,perl,typescript}.go), the host
(subprocess) backend (internal/executor/subprocess.go) and the container
(Docker) backend (internal/executor/docker.go).

Strings are modelled by Lean `String`; the character-level operations of
the Go `strings` package (Split, TrimSpace, Index) are modelled by
executable functions on `List Char`.  Process spawning is modelled by a
`World` oracle mapping an `Invocation` (program, arguments, stdin text,
environment list) to either an OS-level spawn error (Go `exec` returning
a non-ExitError error) or a `ProcResult` (exit code plus the captured
output streams).  Executors return, besides the Go result pair
`(output, err)`, the list of invocations they performed, which makes
"no install command is ever invoked" directly observable.
-/

namespace MCPExecutor

/-- Model of Go `strings.Split(s, sep)` for a one-character separator,
on character lists.  `splitOnChar sep []` is `[[]]`, matching
`strings.Split("", ",") = [""]`. -/
def splitOnChar (sep : Char) : List Char → List (List Char)
  | [] => [[]]
  | c :: rest =>
    let r := splitOnChar sep rest
    if c == sep then [] :: r
    else
      match r with
      | [] => [[c]]
      | h :: t => (c :: h) :: t

/-- Model of Go `strings.Split(s, ",")` (and of any single-character
separator split) at the `String` level. -/
def goSplit (s : String) (sep : Char) : List String :=
  (splitOnChar sep s.toList).map String.mk

/-- Model of Go `strings.TrimSpace` on character lists: drop whitespace
from both ends. -/
def goTrim (l : List Char) : List Char :=
  ((l.dropWhile Char.isWhitespace).reverse.dropWhile Char.isWhitespace).reverse

/-- Go map assignment `m[k] = v`: overwrite the binding for `k` if it
exists, otherwise add it. -/
def mapSet (m : List (String × String)) (k v : String) : List (String × String) :=
  match m with
  | [] => [(k, v)]
  | (k₀, v₀) :: rest => if k₀ = k then (k, v) :: rest else (k₀, v₀) :: mapSet rest k v

/-- The body of the environment-parsing loop shared by every tool
adapter (internal/tools/python.go lines 72-79 and its copies): trim the
pair, locate the first `=` with `strings.Index`, and only when that
index is strictly positive store the trimmed key and the trimmed
remainder of the pair as the value. -/
def envStep (acc : List (String × String)) (pairStr : String) : List (String × String) :=
  let p := goTrim pairStr.toList
  match p.findIdx? (fun c => c == '=') with
  | some i =>
    if 0 < i then
      mapSet acc (String.mk (goTrim (p.take i))) (String.mk (goTrim (p.drop (i + 1))))
    else acc
  | none => acc

/-- The adapters' environment parsing (internal/tools/python.go lines
69-81): an empty `env` argument yields an empty map, otherwise the
string is split on `,` and each pair is processed by `envStep`. -/
def parseEnv (envStr : String) : List (String × String) :=
  if envStr = "" then [] else (goSplit envStr ',').foldl envStep []

/-- PythonTool module parsing (internal/tools/python.go lines 62-67):
comma split, entries used verbatim. -/
def parseModulesPython (modulesStr : String) : List String :=
  if modulesStr = "" then [] else goSplit modulesStr ','

/-- BashTool package parsing (internal/tools/bash.go lines 62-70):
comma split, then every entry is trimmed in place. -/
def parsePackagesBash (packagesStr : String) : List String :=
  if packagesStr = "" then []
  else (goSplit packagesStr ',').map (fun pkg => String.mk (goTrim pkg.toList))

/-- GoTool package parsing (internal/tools/go.go lines 64-68):
comma split, entries used verbatim. -/
def parsePackagesGo (packagesStr : String) : List String :=
  if packagesStr = "" then [] else goSplit packagesStr ','

/-- PerlTool module parsing (internal/tools/perl.go lines 63-67):
comma split, entries used verbatim. -/
def parseModulesPerl (modulesStr : String) : List String :=
  if modulesStr = "" then [] else goSplit modulesStr ','

/-- TypeScriptTool package parsing (internal/tools/typescript.go lines
63-67): comma split, entries used verbatim. -/
def parsePackagesTypeScript (packagesStr : String) : List String :=
  if packagesStr = "" then [] else goSplit packagesStr ','

/-- Result of a child process that could be started and ran to
completion: its exit code and its captured streams.  `combined` is what
Go `cmd.CombinedOutput()` yields (stdout and stderr interleaved into one
buffer); `stdout` and `stderr` are the separated streams that
`cmd.Output()` exposes (`stdout` as the return value, `stderr` via
`ExitError.Stderr`). -/
structure ProcResult where
  exitCode : Nat
  stdout : String
  stderr : String
  combined : String
deriving DecidableEq

/-- One spawned child process: program name, argument vector, the text
piped to its standard input, and its environment as an ordered list of
KEY/VALUE pairs (Go `cmd.Env`; `none`/unset in Go means the inherited
environment, which we pass explicitly). -/
structure Invocation where
  prog : String
  args : List String
  stdin : String
  env : List (String × String)
deriving DecidableEq

/-- The operating system, as seen through `os/exec`: each invocation
either fails to start (Go returns a non-ExitError error whose text is
the payload) or runs to completion with a `ProcResult`. -/
def World : Type := Invocation → Except String ProcResult

/-- Go rendering `%v` of an `exec.ExitError` for exit code `n`. -/
def goExitErrorString (r : ProcResult) : String :=
  "exit status " ++ toString r.exitCode

/-- internal/executor/subprocess.go `SubprocessConfig`: `InstallCmd` is
a Go slice that is `nil` (here `none`) for both host-backend
constructors. -/
structure SubprocessConfig where
  Binary : String
  InstallCmd : Option (List String)
  ExecutorName : String
deriving DecidableEq

/-- internal/executor/subprocess.go `NewSubprocessPythonExecutor`. -/
def NewSubprocessPythonExecutor : SubprocessConfig :=
  { Binary := "python3", InstallCmd := none, ExecutorName := "python-subprocess" }

/-- internal/executor/subprocess.go `NewSubprocessBashExecutor`. -/
def NewSubprocessBashExecutor : SubprocessConfig :=
  { Binary := "bash", InstallCmd := none, ExecutorName := "bash-subprocess" }

/-- The Go result pair `(output string, err error)`: `err = none`
models a nil error. -/
structure ExecOutcome where
  output : String
  err : Option String
deriving DecidableEq

/-- The run-step invocation built by `SubprocessExecutor.Execute`
(subprocess.go lines 176-183): the bare binary with no arguments, the
code attached to standard input, and `os.Environ()` (the inherited
environment) with the caller pairs appended after it. -/
def subprocessRunInvocation (cfg : SubprocessConfig) (inherited : List (String × String))
    (code : String) (envVars : List (String × String)) : Invocation :=
  { prog := cfg.Binary, args := [], stdin := code, env := inherited ++ envVars }

/-- The installer invocation `installDependencies` would spawn
(subprocess.go lines 198-203): `args := InstallCmd ++ dependencies`,
run as `args[0]` with arguments `args[1:]`, inheriting the process
environment, nothing on standard input. -/
def subprocessInstallInvocation (cfg : SubprocessConfig) (inherited : List (String × String))
    (deps : List String) : Invocation :=
  let args := cfg.InstallCmd.getD [] ++ deps
  { prog := args.headD "", args := args.tail, stdin := "", env := inherited }

/-- `SubprocessExecutor.installDependencies` (subprocess.go lines
198-211): spawn the installer and report
`failed to install dependencies: %v` on any failure. -/
def installDependencies (w : World) (cfg : SubprocessConfig) (inherited : List (String × String))
    (deps : List String) : Except String Unit :=
  match w (subprocessInstallInvocation cfg inherited deps) with
  | .error e => .error ("failed to install dependencies: " ++ e)
  | .ok r =>
    if r.exitCode = 0 then .ok ()
    else .error ("failed to install dependencies: " ++ goExitErrorString r)

/-- The run step of `SubprocessExecutor.Execute` (subprocess.go lines
176-196): spawn the binary with the code on stdin; on a clean exit
return `CombinedOutput` with a nil error, on a non-zero exit return
`("", "<name> exited with code <n>: <combined>")`, and on a spawn
failure return `("", "execution failed: <err>")`. -/
def subprocessRunStep (w : World) (cfg : SubprocessConfig) (inherited : List (String × String))
    (code : String) (envVars : List (String × String)) : ExecOutcome :=
  match w (subprocessRunInvocation cfg inherited code envVars) with
  | .error e => { output := "", err := some ("execution failed: " ++ e) }
  | .ok r =>
    if r.exitCode = 0 then { output := r.combined, err := none }
    else
      { output := "",
        err := some (cfg.ExecutorName ++ " exited with code " ++ toString r.exitCode
          ++ ": " ++ r.combined) }

/-- `SubprocessExecutor.Execute` (subprocess.go lines 159-196).  The
installer runs only when the dependency list is non-empty AND
`InstallCmd` is non-nil; an install failure is wrapped once more as
`failed to install dependencies: %v` and the run step is never reached.
The first component is the list of processes actually spawned. -/
def subprocessExecute (w : World) (inherited : List (String × String)) (cfg : SubprocessConfig)
    (code : String) (deps : List String) (envVars : List (String × String)) :
    List Invocation × ExecOutcome :=
  if deps.length > 0 && cfg.InstallCmd.isSome then
    match installDependencies w cfg inherited deps with
    | .error e =>
      ([subprocessInstallInvocation cfg inherited deps],
       { output := "", err := some ("failed to install dependencies: " ++ e) })
    | .ok () =>
      ([subprocessInstallInvocation cfg inherited deps,
        subprocessRunInvocation cfg inherited code envVars],
       subprocessRunStep w cfg inherited code envVars)
  else
    ([subprocessRunInvocation cfg inherited code envVars],
     subprocessRunStep w cfg inherited code envVars)

/-- internal/executor/docker.go `ExecutorConfig`. -/
structure ExecutorConfig where
  Image : String
  InstallCmd : List String
  ExecuteCmd : List String
  ExecutorName : String
deriving DecidableEq

/-- internal/executor/docker.go `NewPythonExecutor`. -/
def NewPythonExecutor : ExecutorConfig :=
  { Image := "mcr.microsoft.com/playwright/python:v1.53.0-noble",
    InstallCmd := ["python", "-m", "pip", "install", "--quiet"],
    ExecuteCmd := ["python"],
    ExecutorName := "python" }

/-- internal/executor/docker.go `NewBashExecutor`. -/
def NewBashExecutor : ExecutorConfig :=
  { Image := "ubuntu:22.04",
    InstallCmd := ["apt-get", "update", "-qq", "&&", "apt-get", "install", "-y", "-qq"],
    ExecuteCmd := ["bash"],
    ExecutorName := "bash" }

/-- The `shArgs` built by `DockerExecutor.Execute` (docker.go lines
103-112), in the source's append order: the install clause
`InstallCmd ++ dependencies ++ ["&&"]` only when the dependency list is
non-empty, then always `ExecuteCmd`. -/
def dockerShellArgs (cfg : ExecutorConfig) (deps : List String) : List String :=
  let shArgs : List String := []
  let shArgs :=
    if deps.length > 0 then shArgs ++ cfg.InstallCmd ++ deps ++ ["&&"] else shArgs
  shArgs ++ cfg.ExecuteCmd

/-- Go `strings.Join(args, " ")`. -/
def joinSpace (args : List String) : String :=
  String.intercalate " " args

/-- The full `docker` argument vector of docker.go lines 97-113:
`run --rm -i <image> sh -c <script>`. -/
def dockerCmdArgs (cfg : ExecutorConfig) (deps : List String) : List String :=
  ["run", "--rm", "-i", cfg.Image] ++ ["sh", "-c", joinSpace (dockerShellArgs cfg deps)]

/-- The container invocation of `DockerExecutor.Execute` (docker.go
lines 118-119): the `docker` CLI with the argument vector above, the
code attached to the container's standard input, and the inherited
environment (the source never sets `cmd.Env`). -/
def dockerInvocation (cfg : ExecutorConfig) (code : String) (deps : List String)
    (inherited : List (String × String)) : Invocation :=
  { prog := "docker", args := dockerCmdArgs cfg deps, stdin := code, env := inherited }

/-- `DockerExecutor.Execute` (docker.go lines 94-131): one container
invocation; on a clean exit return `cmd.Output()` — the standard output
stream only — with a nil error; on a non-zero exit return
`("", "<name> exited with code <n>: <stderr>")`; on a spawn failure
return `("", "execution failed: <err>")`. -/
def dockerExecute (w : World) (inherited : List (String × String)) (cfg : ExecutorConfig)
    (code : String) (deps : List String) : List Invocation × ExecOutcome :=
  let inv := dockerInvocation cfg code deps inherited
  match w inv with
  | .error e => ([inv], { output := "", err := some ("execution failed: " ++ e) })
  | .ok r =>
    if r.exitCode = 0 then ([inv], { output := r.stdout, err := none })
    else
      ([inv],
       { output := "",
         err := some (cfg.ExecutorName ++ " exited with code " ++ toString r.exitCode
           ++ ": " ++ r.stderr) })

/-- `mcp.CallToolResult` as the adapters build it: either
`mcp.NewToolResultText` or `mcp.NewToolResultError` (a normal result
object marked as an error). -/
inductive ToolResult where
  | text (s : String)
  | error (s : String)
deriving DecidableEq

/-- The arguments of one tool call: the required string argument
(`code` or `script`; `none` models a missing or non-string value, which
makes `request.RequireString` fail), and the optional `modules`/
`packages` and `env` strings, for which `request.GetString(name, "")`
yields `""` when absent. -/
structure CallToolRequest where
  code : Option String
  deps : String
  env : String
deriving DecidableEq

/-- `PythonTool.HandleExecution` (internal/tools/python.go lines
50-91), with the injected `executor.Execute` abstracted as `ex`.  The
second component is the Go `error` return value.  Every branch returns
`nil` for it; failures surface only as `ToolResult.error`. -/
def pythonHandleExecution
    (ex : String → List String → List (String × String) → ExecOutcome)
    (req : CallToolRequest) : ToolResult × Option String :=
  match req.code with
  | none => (ToolResult.error "Missing or invalid code argument", none)
  | some code =>
    let modules := parseModulesPython req.deps
    let envVars := parseEnv req.env
    let r := ex code modules envVars
    match r.err with
    | some e => (ToolResult.error e, none)
    | none => (ToolResult.text r.output, none)

/-- `SubprocessBashTool.HandleExecution` (internal/tools/bash.go lines
128-164) composed with the subprocess bash executor it is constructed
with in the subprocess branch of server construction.  It has no
packages parameter and passes a nil dependency list (bash.go line 156).
The first component is the list of processes spawned; the last
component is the Go `error` return value, `nil` in every branch. -/
def subprocessBashHandle (w : World) (inherited : List (String × String))
    (req : CallToolRequest) : List Invocation × ToolResult × Option String :=
  match req.code with
  | none => ([], ToolResult.error "Missing or invalid script argument", none)
  | some script =>
    let envVars := parseEnv req.env
    let res := subprocessExecute w inherited NewSubprocessBashExecutor script [] envVars
    (res.1,
     match res.2.err with
     | some e => ToolResult.error e
     | none => ToolResult.text res.2.output,
     none)

/-- `SubprocessPythonTool.HandleExecution` (internal/tools/python.go
lines 124-160) composed with the subprocess python executor: no modules
parameter, nil dependency list passed to the executor (python.go line
152). -/
def subprocessPythonHandle (w : World) (inherited : List (String × String))
    (req : CallToolRequest) : List Invocation × ToolResult × Option String :=
  match req.code with
  | none => ([], ToolResult.error "Missing or invalid code argument", none)
  | some code =>
    let envVars := parseEnv req.env
    let res := subprocessExecute w inherited NewSubprocessPythonExecutor code [] envVars
    (res.1,
     match res.2.err with
     | some e => ToolResult.error e
     | none => ToolResult.text res.2.output,
     none)

/-- The value a child process observes for variable `k` given a Go
`cmd.Env` list: when the list holds duplicate keys, only the last entry
for the key is used, so the lookup scans from the right. -/
def effectiveEnv (env : List (String × String)) (k : String) : Option String :=
  (env.reverse.find? (fun p => p.1 == k)).map Prod.snd

/-- The two execution backends the server can bind a language tool
to. -/
inductive Backend where
  | subprocess
  | docker
deriving DecidableEq

/-- The server: its registered tools, each bound to the backend chosen
at construction. -/
structure MCPServer where
  registeredTools : List (String × Backend)
deriving DecidableEq

/-- Modelled from the spec: the repository's server constructor
`NewMCPServer(executionMode)` is not among the source files (only its
caller `cmd/serve.go` and its tests are present).  Per the spec's
Execution Selector (section 4.4) and the server tests, the single
execution-mode flag selects the container backend exactly for the value
"docker" and falls back to the subprocess backend for every other
value, and the four language tools are registered on the returned
(always non-nil) server. -/
def NewMCPServer (executionMode : String) : MCPServer :=
  let backend := if executionMode = "docker" then Backend.docker else Backend.subprocess
  { registeredTools :=
      [("execute-python", backend), ("execute-bash", backend),
       ("execute-typescript", backend), ("execute-go", backend)] }

/-! ### Helper lemmas -/

theorem mem_goTrim {x : Char} {l : List Char} (h : x ∈ goTrim l) : x ∈ l := by
  unfold goTrim at h
  rw [List.mem_reverse] at h
  have h₂ := (List.dropWhile_sublist _).mem h
  rw [List.mem_reverse] at h₂
  exact (List.dropWhile_sublist _).mem h₂

theorem findIdxEq_append (k v : List Char) (i : Nat) (hk : '=' ∉ k) :
    List.findIdx? (fun c => c == '=') (k ++ '=' :: v) i = some (i + k.length) := by
  induction k generalizing i with
  | nil => simp [List.findIdx?_cons]
  | cons c cs ih =>
    have hc : (c == '=') = false := by
      simp only [beq_eq_false_iff_ne, ne_eq]
      intro h
      exact hk (by simp [h])
    have hk₂ : '=' ∉ cs := fun h => hk (List.mem_cons_of_mem _ h)
    simp only [List.cons_append, List.findIdx?_cons, hc, if_false, ih (i + 1) hk₂,
      List.length_cons]
    rw [if_neg (by simp)]
    congr 1
    omega

theorem find?_key_of_nodup (l : List (String × String)) (k v : String)
    (hnd : (l.map Prod.fst).Nodup) (hm : (k, v) ∈ l) :
    l.find? (fun p => p.1 == k) = some (k, v) := by
  induction l with
  | nil => cases hm
  | cons hd tl ih =>
    rw [List.map_cons, List.nodup_cons] at hnd
    rcases List.mem_cons.mp hm with heq | htl
    · subst heq
      simp [List.find?_cons]
    · have hne : (hd.1 == k) = false := by
        simp only [beq_eq_false_iff_ne, ne_eq]
        intro h
        exact hnd.1 (h ▸ List.mem_map_of_mem Prod.fst htl)
      simp [List.find?_cons, hne, ih hnd.2 htl]

/-- `envStep` splits a pair at its FIRST `=` only: whenever the trimmed
pair decomposes as `k ++ "=" ++ v` with `k` non-empty and free of `=`
(so that the decomposition is at the first `=`), the loop body stores
the trimmed `k` and the trimmed `v`, however many further `=` characters
`v` contains. -/
theorem envStep_first_eq_split (acc : List (String × String)) (pairStr : String)
    (k v : List Char) (hk : k ≠ []) (hkeq : '=' ∉ k)
    (h : goTrim pairStr.toList = k ++ '=' :: v) :
    envStep acc pairStr = mapSet acc (String.mk (goTrim k)) (String.mk (goTrim v)) := by
  have htake : (k ++ '=' :: v).take k.length = k := List.take_left k ('=' :: v)
  have hdrop : (k ++ '=' :: v).drop (k.length + 1) = v := by
    have happ : (k ++ ['=']) ++ v = k ++ '=' :: v := by simp
    rw [← happ]
    exact List.drop_left' (by simp)
  have hpos : 0 < k.length := by
    cases k with
    | nil => exact absurd rfl hk
    | cons a l => simp
  unfold envStep
  rw [h]
  simp only [findIdxEq_append k v 0 hkeq, Nat.zero_add, if_pos hpos, htake, hdrop]

/-- `envStep` drops a pair whose trimmed form has no `=` at all. -/
theorem envStep_drops_no_eq (acc : List (String × String)) (pairStr : String)
    (h : '=' ∉ pairStr.toList) : envStep acc pairStr = acc := by
  unfold envStep
  have hnone : (goTrim pairStr.toList).findIdx? (fun c => c == '=') = none := by
    rw [List.findIdx?_eq_none_iff]
    intro x hx
    simp only [beq_eq_false_iff_ne, ne_eq]
    intro hxe
    exact h (hxe ▸ mem_goTrim hx)
  simp only [hnone]

/-- `envStep` drops a pair whose trimmed form starts with `=` (an empty
key): the guard requires the index of the first `=` to be strictly
positive. -/
theorem envStep_drops_empty_key (acc : List (String × String)) (pairStr : String)
    (v : List Char) (h : goTrim pairStr.toList = '=' :: v) :
    envStep acc pairStr = acc := by
  unfold envStep
  rw [h]
  simp [List.findIdx?_cons]

/-- With a nil `InstallCmd` the guard of the install branch is false,
so the execution is independent of the dependency list and spawns
exactly the one run-step process. -/
theorem subprocessExecute_no_install (w : World) (inherited : List (String × String))
    (cfg : SubprocessConfig) (code : String) (deps : List String)
    (envVars : List (String × String)) (h : cfg.InstallCmd = none) :
    subprocessExecute w inherited cfg code deps envVars
      = subprocessExecute w inherited cfg code [] envVars ∧
    (subprocessExecute w inherited cfg code deps envVars).1
      = [subprocessRunInvocation cfg inherited code envVars] := by
  constructor <;> simp [subprocessExecute, h]

/-- `DockerExecutor.Execute` spawns exactly one process: the container
invocation. -/
theorem dockerExecute_fst (w : World) (inherited : List (String × String))
    (cfg : ExecutorConfig) (code : String) (deps : List String) :
    (dockerExecute w inherited cfg code deps).1
      = [dockerInvocation cfg code deps inherited] := by
  unfold dockerExecute
  cases hw : w (dockerInvocation cfg code deps inherited) with
  | error e => simp [hw]
  | ok r => by_cases h : r.exitCode = 0 <;> simp [hw, h]

/-- The append chain of docker.go lines 103-112, read declaratively. -/
theorem dockerShellArgs_eq (cfg : ExecutorConfig) (deps : List String) :
    dockerShellArgs cfg deps
      = if deps = [] then cfg.ExecuteCmd
        else cfg.InstallCmd ++ deps ++ ["&&"] ++ cfg.ExecuteCmd := by
  cases deps with
  | nil => simp [dockerShellArgs]
  | cons d ds => simp [dockerShellArgs]

theorem find?_append_left {α : Type} (p : α → Bool) (l₁ l₂ : List α) (a : α)
    (h : l₁.find? p = some a) : (l₁ ++ l₂).find? p = some a := by
  induction l₁ with
  | nil => simp at h
  | cons x xs ih =>
    by_cases hpx : p x = true
    · rw [List.find?_cons, hpx] at h
      rw [List.cons_append, List.find?_cons, hpx]
      exact h
    · rw [Bool.not_eq_true] at hpx
      rw [List.find?_cons, hpx] at h
      rw [List.cons_append, List.find?_cons, hpx]
      exact ih h

/-! ### Claims -/

/-- C1: for every host-backend (subprocess) execution and every
dependency list, no install command is ever invoked: the subprocess
tool adapters always pass a nil dependency list to the executor, the
subprocess Python and Bash executors are constructed with a nil
`InstallCmd`, `SubprocessExecutor.Execute` runs `installDependencies`
only when the dependency list is non-empty AND `InstallCmd` is non-nil
(so with a nil `InstallCmd` the result — output and spawned processes —
is identical whether the dependency list is empty or not, and the only
process ever spawned is the bare interpreter itself). -/
theorem c1_host_backend_never_installs :
    NewSubprocessPythonExecutor.InstallCmd = none ∧
    NewSubprocessBashExecutor.InstallCmd = none ∧
    (∀ (w : World) inherited cfg code deps envVars, cfg.InstallCmd = none →
      subprocessExecute w inherited cfg code deps envVars
        = subprocessExecute w inherited cfg code [] envVars ∧
      (subprocessExecute w inherited cfg code deps envVars).1
        = [subprocessRunInvocation cfg inherited code envVars]) ∧
    (∀ (w : World) inherited req inv,
      inv ∈ (subprocessPythonHandle w inherited req).1 →
      inv.prog = "python3" ∧ inv.args = []) ∧
    (∀ (w : World) inherited req inv,
      inv ∈ (subprocessBashHandle w inherited req).1 →
      inv.prog = "bash" ∧ inv.args = []) := by
  refine ⟨rfl, rfl, fun w inh cfg code deps envV h => subprocessExecute_no_install _ _ _ _ _ _ h,
    ?_, ?_⟩
  · intro w inherited req inv h
    cases hc : req.code with
    | none => simp [subprocessPythonHandle, hc] at h
    | some code =>
      rw [subprocessPythonHandle] at h
      simp only [hc] at h
      rw [(subprocessExecute_no_install w inherited NewSubprocessPythonExecutor code []
        (parseEnv req.env) rfl).2] at h
      rw [List.mem_singleton] at h
      subst h
      exact ⟨rfl, rfl⟩
  · intro w inherited req inv h
    cases hc : req.code with
    | none => simp [subprocessBashHandle, hc] at h
    | some script =>
      rw [subprocessBashHandle] at h
      simp only [hc] at h
      rw [(subprocessExecute_no_install w inherited NewSubprocessBashExecutor script []
        (parseEnv req.env) rfl).2] at h
      rw [List.mem_singleton] at h
      subst h
      exact ⟨rfl, rfl⟩

def c1World : World := fun _ =>
  Except.ok { exitCode := 0, stdout := "out", stderr := "", combined := "out" }

/-- C1 witness: with a non-empty dependency list the host python
executor behaves exactly as with an empty one, and spawns only the
interpreter. -/
theorem c1_witness :
    subprocessExecute c1World [] NewSubprocessPythonExecutor "print(1)" ["requests"] []
      = subprocessExecute c1World [] NewSubprocessPythonExecutor "print(1)" [] [] ∧
    (subprocessExecute c1World [] NewSubprocessPythonExecutor "print(1)" ["requests"] []).1
      = [subprocessRunInvocation NewSubprocessPythonExecutor [] "print(1)" []] :=
  c1_host_backend_never_installs.2.2.1 c1World [] NewSubprocessPythonExecutor
    "print(1)" ["requests"] [] rfl

/-- C2: `DockerExecutor.Execute` spawns exactly the command
`docker run --rm -i <image> sh -c <script>`, where the script is the
space-joined `InstallCmd ++ dependencies ++ ["&&"] ++ ExecuteCmd` when
the dependency list is non-empty and just the joined `ExecuteCmd` when
it is empty, with the code attached to the container's standard
input. -/
theorem c2_docker_command_construction :
    ∀ (w : World) (inherited : List (String × String)) (cfg : ExecutorConfig)
      (code : String) (deps : List String),
      (dockerExecute w inherited cfg code deps).1
        = [{ prog := "docker",
             args := ["run", "--rm", "-i", cfg.Image, "sh", "-c",
               joinSpace (if deps = [] then cfg.ExecuteCmd
                 else cfg.InstallCmd ++ deps ++ ["&&"] ++ cfg.ExecuteCmd)],
             stdin := code, env := inherited }] := by
  intro w inherited cfg code deps
  rw [dockerExecute_fst]
  simp [dockerInvocation, dockerCmdArgs, dockerShellArgs_eq]

/-- C3: the environment parsing shared by the adapters: empty input
yields the empty mapping; a pair without any `=` is silently dropped;
a pair whose trimmed form splits as `key = value` at its FIRST `=` (key
non-empty and free of `=`) stores the trimmed key and trimmed value, so
the value may itself contain further `=` characters —
`"CONN=host=1;user=2"` parses to the single binding
`CONN ↦ "host=1;user=2"` — and whitespace is trimmed around the pair
and around key and value. -/
theorem c3_env_parsing_rules :
    parseEnv "" = [] ∧
    (∀ acc pairStr, '=' ∉ pairStr.toList → envStep acc pairStr = acc) ∧
    (∀ acc pairStr k v, k ≠ [] → '=' ∉ k → goTrim pairStr.toList = k ++ '=' :: v →
      envStep acc pairStr = mapSet acc (String.mk (goTrim k)) (String.mk (goTrim v))) ∧
    parseEnv "CONN=host=1;user=2" = [("CONN", "host=1;user=2")] ∧
    parseEnv " A = B ,NOEQ,C=D" = [("A", "B"), ("C", "D")] :=
  ⟨by decide, fun acc p h => envStep_drops_no_eq acc p h,
   fun acc p k v hk hkeq h => envStep_first_eq_split acc p k v hk hkeq h,
   by decide, by decide⟩

/-- C3 witness: the first-`=` split rule applied to a concrete pair
with whitespace and further `=` characters in the value. -/
theorem c3_witness :
    envStep [] " CONN = host=1;user=2 " = [("CONN", "host=1;user=2")] := by
  have h := c3_env_parsing_rules.2.2.1 [] " CONN = host=1;user=2 "
    "CONN ".toList " host=1;user=2".toList (by decide) (by decide) (by decide)
  exact h.trans (by decide)

def c4World : World := fun _ =>
  Except.ok { exitCode := 0, stdout := "hello\n", stderr := "warn\n", combined := "hello\nwarn\n" }

/-- C4 counterexample: a container run that exits zero after writing to
both streams.  `DockerExecutor.Execute` returns only the standard
output stream (`cmd.Output()`), not the combined stdout+stderr text, so
the claim is false for the container backend. -/
theorem c4_counterexample :
    c4World (dockerInvocation NewPythonExecutor "print(1)" [] [])
      = Except.ok { exitCode := 0, stdout := "hello\n", stderr := "warn\n",
                    combined := "hello\nwarn\n" } ∧
    (dockerExecute c4World [] NewPythonExecutor "print(1)" []).2
      = { output := "hello\n", err := none } ∧
    ("hello\n" : String) ≠ "hello\nwarn\n" :=
  ⟨rfl, rfl, by decide⟩

/-- C4 amended: on a zero exit of the run step, the host backend
returns the combined stdout+stderr (`CombinedOutput`), while the
container backend returns the standard output stream only
(`cmd.Output()`; its stderr surfaces only in the error message of a
non-zero exit). -/
theorem c4_success_output :
    (∀ (w : World) inherited cfg code deps envVars r,
      w (subprocessRunInvocation cfg inherited code envVars) = Except.ok r →
      r.exitCode = 0 →
      ((deps.length > 0 && cfg.InstallCmd.isSome) = true →
        installDependencies w cfg inherited deps = Except.ok ()) →
      (subprocessExecute w inherited cfg code deps envVars).2
        = { output := r.combined, err := none }) ∧
    (∀ (w : World) inherited cfg code deps r,
      w (dockerInvocation cfg code deps inherited) = Except.ok r → r.exitCode = 0 →
      (dockerExecute w inherited cfg code deps).2
        = { output := r.stdout, err := none }) := by
  constructor
  · intro w inherited cfg code deps envVars r hw h0 hinst
    unfold subprocessExecute
    by_cases hc : (deps.length > 0 && cfg.InstallCmd.isSome) = true
    · rw [if_pos hc, hinst hc]
      simp [subprocessRunStep, hw, h0]
    · rw [if_neg hc]
      simp [subprocessRunStep, hw, h0]
  · intro w inherited cfg code deps r hw h0
    unfold dockerExecute
    simp [hw, h0]

/-- C4 witness: the two success shapes at a concrete world (exit 0,
stdout `"hello\n"`, stderr `"warn\n"`, combined `"hello\nwarn\n"`). -/
theorem c4_witness :
    (subprocessExecute c4World [] NewSubprocessPythonExecutor "x" [] []).2
      = { output := "hello\nwarn\n", err := none } ∧
    (dockerExecute c4World [] NewBashExecutor "y" []).2
      = { output := "hello\n", err := none } := by
  constructor
  · exact c4_success_output.1 c4World [] NewSubprocessPythonExecutor "x" [] [] _
      rfl rfl (fun hc => absurd hc (by decide))
  · exact c4_success_output.2 c4World [] NewBashExecutor "y" [] _ rfl rfl

/-- C6: a non-zero exit of the run step yields the empty output string
together with an error naming the executor, the exit code and the
captured diagnostic output (the combined stdout+stderr for the host
backend, the captured stderr for the container backend); the `err`
field being `some` means a non-zero exit never yields a success
result. -/
theorem c6_nonzero_exit_is_error :
    (∀ (w : World) inherited cfg code deps envVars r,
      w (subprocessRunInvocation cfg inherited code envVars) = Except.ok r →
      r.exitCode ≠ 0 →
      ((deps.length > 0 && cfg.InstallCmd.isSome) = true →
        installDependencies w cfg inherited deps = Except.ok ()) →
      (subprocessExecute w inherited cfg code deps envVars).2
        = { output := "",
            err := some (cfg.ExecutorName ++ " exited with code " ++ toString r.exitCode
              ++ ": " ++ r.combined) }) ∧
    (∀ (w : World) inherited cfg code deps r,
      w (dockerInvocation cfg code deps inherited) = Except.ok r → r.exitCode ≠ 0 →
      (dockerExecute w inherited cfg code deps).2
        = { output := "",
            err := some (cfg.ExecutorName ++ " exited with code " ++ toString r.exitCode
              ++ ": " ++ r.stderr) }) := by
  constructor
  · intro w inherited cfg code deps envVars r hw h0 hinst
    unfold subprocessExecute
    by_cases hc : (deps.length > 0 && cfg.InstallCmd.isSome) = true
    · rw [if_pos hc, hinst hc]
      simp [subprocessRunStep, hw, h0]
    · rw [if_neg hc]
      simp [subprocessRunStep, hw, h0]
  · intro w inherited cfg code deps r hw h0
    unfold dockerExecute
    simp [hw, h0]

def c6World : World := fun _ =>
  Except.ok { exitCode := 3, stdout := "o", stderr := "e", combined := "oe" }

/-- C6 witness: exit code 3 at a concrete world, for both backends. -/
theorem c6_witness :
    (subprocessExecute c6World [] NewSubprocessPythonExecutor "x" [] []).2
      = { output := "", err := some "python-subprocess exited with code 3: oe" } ∧
    (dockerExecute c6World [] NewBashExecutor "y" []).2
      = { output := "", err := some "bash exited with code 3: e" } := by
  constructor
  · have h := c6_nonzero_exit_is_error.1 c6World [] NewSubprocessPythonExecutor "x" [] [] _
      rfl (by decide) (fun hc => absurd hc (by decide))
    exact h.trans (by decide)
  · have h := c6_nonzero_exit_is_error.2 c6World [] NewBashExecutor "y" [] _ rfl (by decide)
    exact h.trans (by decide)

/-- C7: `HandleExecution` returns a nil Go error in every branch: a
missing required argument and an executor failure are both converted
into a normal tool result marked as an error (carrying the message as
text), never propagated as a Go error past the adapter boundary.
Shown for the container-bound `PythonTool` (over any executor) and for
the host-bound `SubprocessBashTool` composed with its executor. -/
theorem c7_handlers_return_nil_error :
    (∀ ex req, (pythonHandleExecution ex req).2 = none) ∧
    (∀ ex req, req.code = none →
      (pythonHandleExecution ex req).1
        = ToolResult.error "Missing or invalid code argument") ∧
    (∀ ex req code e, req.code = some code →
      (ex code (parseModulesPython req.deps) (parseEnv req.env)).err = some e →
      (pythonHandleExecution ex req).1 = ToolResult.error e) ∧
    (∀ (w : World) inherited req, (subprocessBashHandle w inherited req).2.2 = none) ∧
    (∀ (w : World) inherited req, req.code = none →
      (subprocessBashHandle w inherited req).2.1
        = ToolResult.error "Missing or invalid script argument") ∧
    (∀ (w : World) inherited req script e, req.code = some script →
      (subprocessExecute w inherited NewSubprocessBashExecutor script []
        (parseEnv req.env)).2.err = some e →
      (subprocessBashHandle w inherited req).2.1 = ToolResult.error e) := by
  refine ⟨?_, ?_, ?_, ?_, ?_, ?_⟩
  · intro ex req
    cases hc : req.code with
    | none => simp [pythonHandleExecution, hc]
    | some code =>
      simp only [pythonHandleExecution, hc]
      cases (ex code (parseModulesPython req.deps) (parseEnv req.env)).err <;> rfl
  · intro ex req hc
    simp [pythonHandleExecution, hc]
  · intro ex req code e hc he
    simp [pythonHandleExecution, hc, he]
  · intro w inherited req
    cases hc : req.code with
    | none => simp [subprocessBashHandle, hc]
    | some script => simp [subprocessBashHandle, hc]
  · intro w inherited req hc
    simp [subprocessBashHandle, hc]
  · intro w inherited req script e hc he
    simp [subprocessBashHandle, hc, he]

def c7World : World := fun _ =>
  Except.error "fork failed"

/-- C7 witness: the missing-argument branch and a failing execution
both yield an error-marked result with a nil Go error. -/
theorem c7_witness :
    (pythonHandleExecution
      (fun _ _ _ => { output := "", err := some "boom" })
      { code := none, deps := "", env := "" }).1
      = ToolResult.error "Missing or invalid code argument" ∧
    (subprocessBashHandle c7World [] { code := some "ls", deps := "", env := "" }).2.1
      = ToolResult.error "execution failed: fork failed" := by
  constructor
  · exact c7_handlers_return_nil_error.2.1
      (fun _ _ _ => { output := "", err := some "boom" })
      { code := none, deps := "", env := "" } rfl
  · exact c7_handlers_return_nil_error.2.2.2.2.2 c7World []
      { code := some "ls", deps := "", env := "" } "ls" "execution failed: fork failed" rfl rfl

/-- C5 counterexample: the dependency split is NOT uniform across
languages and not always verbatim: the Python adapter keeps the raw
comma-split entries (including whitespace) while the Bash adapter
trims each entry, so at the modules string `"requests , numpy"` the
Bash list differs from the raw split. -/
theorem c5_counterexample :
    parseModulesPython "requests , numpy" = ["requests ", " numpy"] ∧
    goSplit "requests , numpy" ',' = ["requests ", " numpy"] ∧
    parsePackagesBash "requests , numpy" = ["requests", "numpy"] ∧
    parsePackagesBash "requests , numpy" ≠ goSplit "requests , numpy" ',' := by
  decide

/-- C5 amended: the Python, Go, Perl and TypeScript adapters split
their dependency string on `,` and use each entry verbatim (the four
parsers agree everywhere); the Bash adapter additionally trims
whitespace from each entry after the split; every adapter maps the
empty string to the empty list. -/
theorem c5_amended_split_rules :
    (∀ s, parseModulesPython s = parsePackagesGo s ∧
      parseModulesPython s = parseModulesPerl s ∧
      parseModulesPython s = parsePackagesTypeScript s) ∧
    (∀ s, s ≠ "" → parseModulesPython s = goSplit s ',' ∧
      parsePackagesBash s = (goSplit s ',').map (fun pkg => String.mk (goTrim pkg.toList))) ∧
    parseModulesPython "" = [] ∧ parsePackagesBash "" = [] := by
  refine ⟨fun s => ⟨rfl, rfl, rfl⟩, fun s hs => ?_, rfl, rfl⟩
  constructor <;> simp [parseModulesPython, parsePackagesBash, if_neg hs]

/-- C5 witness: the split rules at a concrete non-empty string. -/
theorem c5_witness :
    parseModulesPython "requests ,numpy" = goSplit "requests ,numpy" ',' ∧
    parsePackagesBash "requests ,numpy"
      = (goSplit "requests ,numpy" ',').map (fun pkg => String.mk (goTrim pkg.toList)) :=
  c5_amended_split_rules.2.1 "requests ,numpy" (by decide)

/-- C8: the host run step delivers the code on standard input with an
empty argument vector (never as a command-line argument), its
environment is the inherited environment with the caller pairs appended
after it, the invocation actually run on success is exactly this one,
and because a later duplicate entry wins, a caller-supplied key takes
precedence over an inherited variable of the same name. -/
theorem c8_stdin_and_env_precedence :
    (∀ cfg inherited code envVars,
      subprocessRunInvocation cfg inherited code envVars
        = { prog := cfg.Binary, args := [], stdin := code,
            env := inherited ++ envVars }) ∧
    (∀ (w : World) inherited cfg code deps envVars out,
      (subprocessExecute w inherited cfg code deps envVars).2
        = { output := out, err := none } →
      (subprocessExecute w inherited cfg code deps envVars).1.getLast?
        = some (subprocessRunInvocation cfg inherited code envVars)) ∧
    (∀ inherited callerEnv k v, (callerEnv.map Prod.fst).Nodup → (k, v) ∈ callerEnv →
      effectiveEnv (inherited ++ callerEnv) k = some v) := by
  refine ⟨fun cfg inherited code envVars => rfl, ?_, ?_⟩
  · intro w inherited cfg code deps envVars out h
    unfold subprocessExecute at h ⊢
    by_cases hc : (deps.length > 0 && cfg.InstallCmd.isSome) = true
    · rw [if_pos hc] at h ⊢
      cases hi : installDependencies w cfg inherited deps with
      | error e => rw [hi] at h; simp at h
      | ok u =>
        cases u
        simp
    · rw [if_neg hc] at h ⊢
      simp
  · intro inherited callerEnv k v hnd hm
    unfold effectiveEnv
    rw [List.reverse_append]
    have h1 : callerEnv.reverse.find? (fun p => p.1 == k) = some (k, v) :=
      find?_key_of_nodup _ _ _
        (by rw [List.map_reverse]; exact List.nodup_reverse.mpr hnd)
        (List.mem_reverse.mpr hm)
    rw [find?_append_left _ _ _ _ h1]
    rfl

/-- C8 witness: a caller-supplied `PATH` overrides the inherited
one. -/
theorem c8_witness :
    effectiveEnv ([("PATH", "/usr/bin"), ("HOME", "/root")] ++ [("PATH", "/override")]) "PATH"
      = some "/override" :=
  c8_stdin_and_env_precedence.2.2 [("PATH", "/usr/bin"), ("HOME", "/root")]
    [("PATH", "/override")] "PATH" "/override" (by decide) (by decide)

/-- C9 (spec-modelled server constructor): every execution-mode value
other than `"docker"` — including the empty string — binds the
subprocess backend to every registered language tool, the returned
server always has its four tools registered, and `"docker"` is the only
value selecting the container backend. -/
theorem c9_mode_selection :
    (∀ mode, mode ≠ "docker" →
      (∀ t ∈ (NewMCPServer mode).registeredTools, t.2 = Backend.subprocess) ∧
      (NewMCPServer mode).registeredTools.length = 4) ∧
    (∀ t ∈ (NewMCPServer "docker").registeredTools, t.2 = Backend.docker) := by
  constructor
  · intro mode h
    constructor
    · intro t ht
      simp only [NewMCPServer, if_neg h, List.mem_cons, List.not_mem_nil, or_false] at ht
      rcases ht with h1 | h1 | h1 | h1 <;> simp [h1]
    · simp [NewMCPServer]
  · intro t ht
    have hd : (if ("docker" : String) = "docker" then Backend.docker else Backend.subprocess)
        = Backend.docker := if_pos rfl
    simp only [NewMCPServer, hd, List.mem_cons, List.not_mem_nil, or_false] at ht
    rcases ht with h1 | h1 | h1 | h1 <;> simp [h1]

/-- C9 witness: the empty (absent) mode value selects the subprocess
backend for all four registered tools. -/
theorem c9_witness :
    (∀ t ∈ (NewMCPServer "").registeredTools, t.2 = Backend.subprocess) ∧
    (NewMCPServer "").registeredTools.length = 4 :=
  c9_mode_selection.1 "" (by decide)

/-- C10: a pair whose trimmed form has its first `=` at position 0 (an
empty key, such as `"=VALUE"`) is silently dropped, exactly like a
pair containing no `=` at all, because the guard requires the index of
the first `=` to be strictly positive. -/
theorem c10_empty_key_pair_dropped :
    (∀ acc pairStr v, goTrim pairStr.toList = '=' :: v → envStep acc pairStr = acc) ∧
    parseEnv "=VALUE" = [] ∧
    parseEnv "=VALUE,A=1" = [("A", "1")] :=
  ⟨fun acc p v h => envStep_drops_empty_key acc p v h, by decide, by decide⟩

/-- C10 witness: a concrete `=`-leading pair leaves the accumulated
mapping unchanged. -/
theorem c10_witness : envStep [("X", "1")] " =oops" = [("X", "1")] :=
  c10_empty_key_pair_dropped.1 [("X", "1")] " =oops" "oops".toList (by decide)

end MCPExecutor
